import Mathlib

/-!
Shallow embedding of the `autocert` certificate lifecycle orchestrator.

The definitions below are translated from the Go sources:
  * `main.go` (cmd/install.go section): `parseDomains`, `validateDomainName`,
    `validateInstallFlags`, and the challenge-type selection performed by
    `installSingleDomain` / `installMultiDomain`;
  * `internal/cert/manager.go`: single-domain `Manager` with `Install`,
    `Renew`, `GetCertInfo` and its private step functions;
  * `internal/cert/multidomainmanager.go`: `MultiDomainManager`;
  * the Nginx configurator (`webserver` package): `checkSSLInConfig`,
    `IsSSLEnabled`.

Modelling conventions:
  * Go `string` is Lean `String`; byte-level operations of the `strings`
    package are modelled on the character list (`String.toList`), which
    agrees with the byte-level semantics on ASCII data.
  * Timestamps (`time.Time`) and durations are natural numbers of seconds.
  * The file system is an association list from path to abstract file
    content; a fresh write is consed in front, so the newest write wins,
    mirroring file overwrite.
  * Nondeterministic I/O and crypto failures (directory creation, RSA key
    generation, CSR creation, certificate creation, file writes) are
    injected through an explicit environment `Env` of failure flags; each
    Go step that surfaces a single wrapped error collapses its internal
    failure points into one flag.
-/

/-- Model of `unicode.IsSpace` restricted to the Latin-1 range (the range relevant
to the source's inputs). -/
def goIsSpace (c : Char) : Bool :=
  c == ' ' || c == '\t' || c == '\n' || c == '\x0b' || c == '\x0c' ||
    c == '\r' || c == '\x85' || c == '\xa0'

/-- Character-list test: `p` is a prefix of `s`. -/
def charsPre : List Char → List Char → Bool
  | [], _ => true
  | _ :: _, [] => false
  | p :: ps, c :: cs => p == c && charsPre ps cs

/-- Character-list substring search (Go `strings.Contains`). -/
def charsSub (pat : List Char) : List Char → Bool
  | [] => charsPre pat []
  | c :: rest => charsPre pat (c :: rest) || charsSub pat rest

/-- Go `strings.Contains s pat`. -/
def goContains (s pat : String) : Bool :=
  charsSub pat.toList s.toList

/-- Go `strings.HasPrefix s pat`. -/
def startsWith (s pat : String) : Bool :=
  charsPre pat.toList s.toList

/-- Drop leading Go whitespace from a character list. -/
def dropSpaces : List Char → List Char
  | [] => []
  | c :: cs => if goIsSpace c then dropSpaces cs else c :: cs

/-- Go `strings.TrimSpace`. -/
def goTrimSpace (s : String) : String :=
  String.mk ((dropSpaces (dropSpaces s.toList).reverse).reverse)

/-- Go `strings.Join l sep`. -/
def joinSep (sep : String) : List String → String
  | [] => ""
  | [x] => x
  | x :: y :: xs => x ++ sep ++ joinSep sep (y :: xs)

/-- Go `len` of a string (UTF-8 byte length). -/
def goLen (s : String) : Nat :=
  s.toList.foldl (fun n c => n + c.utf8Size) 0

/-- Model of `filepath.Join` of two components (POSIX separator). -/
def pathJoin (a b : String) : String := a ++ "/" ++ b

/-- One hour, in seconds. -/
def goHour : Nat := 3600

/-- One day, in seconds. -/
def goDay : Nat := 24 * goHour

/-- The distinct `fmt.Errorf` messages produced by the domain validation
and parsing code of `main.go` (all of them are "malformed domain"
failures from the caller's point of view). -/
inductive DomainError where
  | emptyDomain
  | wildcardTooShort
  | wildcardStarInside
  | containsSpace
  | noDomainGiven
  deriving DecidableEq, Repr

/-- Model of `validateDomainName` from `main.go`: empty check, wildcard-shape check
(only entered when the domain starts with the literal `*.`), and the
space-character check.  `none` means the domain is accepted. -/
def validateDomainName (domain : String) : Option DomainError :=
  if goLen domain = 0 then some .emptyDomain
  else if startsWith domain "*." then
    if goLen domain < 4 then some .wildcardTooShort
    else if goContains (String.mk (domain.toList.drop 2)) "*" then
      some .wildcardStarInside
    else if goContains domain " " then some .containsSpace
    else none
  else if goContains domain " " then some .containsSpace
  else none

/-- The per-entry loop in `parseDomains`: first entry that is empty or
fails `validateDomainName` yields that error. -/
def validateDomainList : List String → Option DomainError
  | [] => none
  | d :: rest =>
    if d = "" then some .emptyDomain
    else
      match validateDomainName d with
      | some e => some e
      | none => validateDomainList rest

/-- Split a character list at every occurrence of `c` (Go
`strings.Split` for a one-character separator: the empty input yields
one empty field). -/
def splitOnChar (c : Char) : List Char → List (List Char)
  | [] => [[]]
  | x :: xs =>
    if x == c then [] :: splitOnChar c xs
    else
      match splitOnChar c xs with
      | [] => [[x]]
      | y :: ys => (x :: y) :: ys

/-- Go `strings.Split s ","`. -/
def goSplitComma (s : String) : List String :=
  (splitOnChar ',' s.toList).map String.mk

/-- Model of `parseDomains` from `main.go`, with the two flag globals passed
explicitly: `domainsFlag` is `--domains` (comma separated), `domainFlag`
is `--domain`. -/
def parseDomains (domainsFlag domainFlag : String) :
    Except DomainError (List String) :=
  if domainsFlag ≠ "" then
    match validateDomainList ((goSplitComma domainsFlag).map goTrimSpace) with
    | some e => .error e
    | none => .ok ((goSplitComma domainsFlag).map goTrimSpace)
  else if domainFlag ≠ "" then
    match validateDomainList [goTrimSpace domainFlag] with
    | some e => .error e
    | none => .ok [goTrimSpace domainFlag]
  else .error .noDomainGiven

/-- Challenge types; Go declares them as `int` constants, so the model
uses `Nat`. -/
def ChallengeWebroot : Nat := 0

/-- Standalone challenge constant. -/
def ChallengeStandalone : Nat := 1

/-- DNS challenge constant. -/
def ChallengeDNS : Nat := 2

/-- Web-server types; Go declares them as `int` constants. -/
def WebServerNginx : Nat := 0

/-- Apache web-server constant. -/
def WebServerApache : Nat := 1

/-- IIS web-server constant. -/
def WebServerIIS : Nat := 2

/-- The flag globals of the `install` command. -/
structure InstallFlags where
  standalone : Bool
  webroot : String
  dnsChallenge : Bool
  nginx : Bool
  apache : Bool
  iis : Bool
  deriving DecidableEq, Repr

/-- Errors of `validateInstallFlags`. -/
inductive FlagError where
  | webServerRequired
  | multipleWebServers
  | wildcardRequiresDNS
  | invalidChallengeConfiguration
  deriving DecidableEq, Repr

/-- Number of web-server flags set. -/
def webServerCount (f : InstallFlags) : Nat :=
  (if f.nginx then 1 else 0) + (if f.apache then 1 else 0) +
    (if f.iis then 1 else 0)

/-- Number of challenge-mode flags set. -/
def challengeModeCount (f : InstallFlags) : Nat :=
  (if f.standalone then 1 else 0) + (if f.webroot ≠ "" then 1 else 0) +
    (if f.dnsChallenge then 1 else 0)

/-- The wildcard scan used in `validateInstallFlags`,
`installMultiDomain` and `MultiDomainManager`. -/
def hasWildcardList (domains : List String) : Bool :=
  domains.any (fun d => startsWith d "*.")

/-- Model of `validateInstallFlags` from `main.go`, with its exact check order:
web-server presence, web-server uniqueness, wildcard-without-DNS,
challenge-mode conflict. -/
def validateInstallFlags (f : InstallFlags) (domainList : List String) :
    Option FlagError :=
  if !f.nginx && !f.apache && !f.iis then some .webServerRequired
  else if webServerCount f > 1 then some .multipleWebServers
  else if hasWildcardList domainList && !f.dnsChallenge then
    some .wildcardRequiresDNS
  else if challengeModeCount f > 1 then
    some .invalidChallengeConfiguration
  else none

/-- The challenge type `installSingleDomain` assigns to the manager. -/
def selectedChallengeSingle (f : InstallFlags) (domain : String) : Nat :=
  if f.dnsChallenge || startsWith domain "*." then ChallengeDNS
  else if f.standalone then ChallengeStandalone
  else if f.webroot ≠ "" then ChallengeWebroot
  else ChallengeWebroot

/-- The challenge type `installMultiDomain` assigns to the manager. -/
def selectedChallengeMulti (f : InstallFlags) (domains : List String) :
    Nat :=
  if f.dnsChallenge || hasWildcardList domains then ChallengeDNS
  else if f.standalone then ChallengeStandalone
  else if f.webroot ≠ "" then ChallengeWebroot
  else ChallengeWebroot

/-- Payload of a parsed X.509 certificate, restricted to the fields the
orchestrator reads or writes (`generateSelfSignedCert`, `GetCertInfo`). -/
structure CertData where
  subjectCN : String
  dnsNames : List String
  notBefore : Nat
  notAfter : Nat
  deriving DecidableEq, Repr

/-- Payload of a PKCS#10 certificate request (`createCSR` /
`createMultiDomainCSR`). -/
structure CSRData where
  commonName : String
  dnsNames : List String
  deriving DecidableEq, Repr

/-- Abstract content of a file-system entry.  `keyPEM` is a PEM block of
type RSA PRIVATE KEY (decodes as PEM, is not a certificate); `certPEM`
is a PEM block holding a parseable certificate; `pemBadDER` is a PEM
block whose payload `x509.ParseCertificate` rejects; `text` and
`rawBytes` do not decode as PEM; `dir` is a directory entry. -/
inductive FileContent where
  | dir
  | text (s : String)
  | keyPEM
  | certPEM (c : CertData)
  | pemBadDER
  | rawBytes
  deriving DecidableEq, Repr

/-- File system: newest write first. -/
abbrev FS := List (String × FileContent)

/-- Write (create or overwrite) a file. -/
def setFile (fs : FS) (p : String) (c : FileContent) : FS := (p, c) :: fs

/-- Read a file; `none` when the path was never written. -/
def getFile (fs : FS) (p : String) : Option FileContent :=
  (fs.find? (fun e => e.1 == p)).map (fun e => e.2)

/-- Failure-injection environment for one manager invocation.  Each flag
makes the corresponding Go step return its error; `now` is the value of
`time.Now()` during the invocation. -/
structure Env where
  now : Nat
  mkdirFails : Bool
  keyGenFails : Bool
  csrFails : Bool
  selfSignFails : Bool
  certWriteFails : Bool
  domainsWriteFails : Bool
  deriving DecidableEq, Repr

/-- Wrapped stage errors of `Install` (single- and multi-domain); each
constructor corresponds to one distinct `fmt.Errorf` wrap in the Go
`Install` methods. -/
inductive InstallError where
  | wildcardRequiresDNS
  | createCertDirFailed
  | generateKeyFailed
  | createCSRFailed
  | obtainCertificateFailed
  | saveCertificateFailed
  | configureWebServerFailed
  deriving DecidableEq, Repr

/-- Errors of `GetCertInfo`, one per `return nil, err` site. -/
inductive CertInfoError where
  | certificateNotFound
  | readFileFailed
  | certificateUnreadable
  | certificateParseError
  deriving DecidableEq, Repr

/-- Errors of `Renew`: either the initial `GetCertInfo` failed, or the
re-install failed. -/
inductive RenewError where
  | getCertInfoFailed (e : CertInfoError)
  | installError (e : InstallError)
  deriving DecidableEq, Repr

/-- The `CertInfo` struct of `manager.go`. -/
structure CertInfo where
  Domain : String
  CertPath : String
  KeyPath : String
  ChainPath : String
  ExpiryDate : Nat
  IsValid : Bool
  deriving DecidableEq, Repr

/-- The `Manager` struct.  `challengeType` and `webServerType` are Go
`int`-typed enums, modelled as `Nat`. -/
structure Manager where
  domain : String
  email : String
  challengeType : Nat
  webrootPath : String
  webServerType : Nat
  certDir : String
  keySize : Nat
  deriving DecidableEq, Repr

/-- Model of `NewManager`; `certDir` stands for the result of
`config.GetCertDir()`. -/
def NewManager (domain email certDir : String) : Manager :=
  { domain := domain, email := email, challengeType := ChallengeWebroot,
    webrootPath := "", webServerType := WebServerNginx,
    certDir := certDir, keySize := 2048 }

/-- Model of `getCertPath`. -/
def Manager.getCertPath (m : Manager) : String :=
  pathJoin (pathJoin m.certDir m.domain) "cert.pem"

/-- Model of `getKeyPath`. -/
def Manager.getKeyPath (m : Manager) : String :=
  pathJoin (pathJoin m.certDir m.domain) "key.pem"

/-- Model of `getChainPath`. -/
def Manager.getChainPath (m : Manager) : String :=
  pathJoin (pathJoin m.certDir m.domain) "chain.pem"

/-- Model of `createCertDir`: `os.MkdirAll(certDir/<domain>)`. -/
def Manager.createCertDir (e : Env) (m : Manager) (fs : FS) :
    Except Unit FS :=
  if e.mkdirFails then .error ()
  else .ok (setFile fs (pathJoin m.certDir m.domain) .dir)

/-- Model of `generatePrivateKey`: generates the RSA key and immediately writes
`key.pem` (mode 0600).  The internal failure points (GenerateKey,
Create, Encode, Chmod) are collapsed into `keyGenFails`. -/
def Manager.generatePrivateKey (e : Env) (m : Manager) (fs : FS) :
    Except Unit FS :=
  if e.keyGenFails then .error ()
  else .ok (setFile fs m.getKeyPath .keyPEM)

/-- Model of `createCSR`: CN is the domain, SAN list is the one domain. -/
def Manager.createCSR (e : Env) (m : Manager) : Except Unit CSRData :=
  if e.csrFails then .error ()
  else .ok { commonName := m.domain, dnsNames := [m.domain] }

/-- Model of `generateSelfSignedCert`: NotBefore = now, NotAfter = now + 90 days,
subject and SAN list copied from the CSR. -/
def generateSelfSignedCert (e : Env) (csr : CSRData) :
    Except Unit CertData :=
  if e.selfSignFails then .error ()
  else .ok { subjectCN := csr.commonName, dnsNames := csr.dnsNames,
             notBefore := e.now, notAfter := e.now + 90 * goDay }

/-- Model of `obtainCertificate` of the single-domain manager: every supported
challenge type goes to the self-signed stub; any other value hits the
`default` branch and errors. -/
def Manager.obtainCertificate (e : Env) (m : Manager) (csr : CSRData) :
    Except Unit CertData :=
  if m.challengeType = ChallengeWebroot then generateSelfSignedCert e csr
  else if m.challengeType = ChallengeStandalone then
    generateSelfSignedCert e csr
  else if m.challengeType = ChallengeDNS then generateSelfSignedCert e csr
  else .error ()

/-- Model of `saveCertificate` of the single-domain manager: writes `cert.pem`. -/
def Manager.saveCertificate (e : Env) (m : Manager) (cert : CertData)
    (fs : FS) : Except Unit FS :=
  if e.certWriteFails then .error ()
  else .ok (setFile fs m.getCertPath (.certPEM cert))

/-- Model of `configureWebServer`: the three concrete configurators are stubs that
log and return nil; any other `webServerType` value hits the `default`
branch and errors. -/
def Manager.configureWebServer (m : Manager) : Except Unit Unit :=
  if m.webServerType = WebServerNginx then .ok ()
  else if m.webServerType = WebServerApache then .ok ()
  else if m.webServerType = WebServerIIS then .ok ()
  else .error ()

/-- Model of `Manager.Install`: the six-stage pipeline, each non-nil step error
returned as the corresponding wrapped stage error.  The pair carries the
resulting file system. -/
def Manager.Install (e : Env) (m : Manager) (fs : FS) :
    Except InstallError Unit × FS :=
  match m.createCertDir e fs with
  | .error _ => (.error .createCertDirFailed, fs)
  | .ok fs1 =>
    match m.generatePrivateKey e fs1 with
    | .error _ => (.error .generateKeyFailed, fs1)
    | .ok fs2 =>
      match m.createCSR e with
      | .error _ => (.error .createCSRFailed, fs2)
      | .ok csr =>
        match m.obtainCertificate e csr with
        | .error _ => (.error .obtainCertificateFailed, fs2)
        | .ok cert =>
          match m.saveCertificate e cert fs2 with
          | .error _ => (.error .saveCertificateFailed, fs2)
          | .ok fs3 =>
            match m.configureWebServer with
            | .error _ => (.error .configureWebServerFailed, fs3)
            | .ok _ => (.ok (), fs3)

/-- Model of `GetCertInfo`: stat, read, PEM-decode, parse; on success the validity
flag is `time.Now().Before(cert.NotAfter)`. -/
def Manager.GetCertInfo (m : Manager) (now : Nat) (fs : FS) :
    Except CertInfoError CertInfo :=
  match getFile fs m.getCertPath with
  | none => .error .certificateNotFound
  | some .dir => .error .readFileFailed
  | some (.text _) => .error .certificateUnreadable
  | some .rawBytes => .error .certificateUnreadable
  | some .keyPEM => .error .certificateParseError
  | some .pemBadDER => .error .certificateParseError
  | some (.certPEM c) =>
    .ok { Domain := m.domain, CertPath := m.getCertPath,
          KeyPath := m.getKeyPath, ChainPath := m.getChainPath,
          ExpiryDate := c.notAfter, IsValid := decide (now < c.notAfter) }

/-- Model of `Renew`: read the certificate info; if
`time.Until(ExpiryDate) > 30*24*time.Hour` return nil without touching
anything, otherwise run the full `Install` flow.  `time.Until` is a
signed difference; with `Nat` subtraction an already-expired certificate
gives `0`, matching the sign test. -/
def Manager.Renew (e : Env) (m : Manager) (fs : FS) :
    Except RenewError Unit × FS :=
  match m.GetCertInfo e.now fs with
  | .error err => (.error (.getCertInfoFailed err), fs)
  | .ok info =>
    if 30 * goDay < info.ExpiryDate - e.now then (.ok (), fs)
    else
      match m.Install e fs with
      | (.error err, fs') => (.error (.installError err), fs')
      | (.ok _, fs') => (.ok (), fs')

/-- The `MultiDomainManager` struct. -/
structure MultiDomainManager where
  domains : List String
  primaryDomain : String
  email : String
  challengeType : Nat
  webrootPath : String
  webServerType : Nat
  certDir : String
  keySize : Nat
  deriving DecidableEq, Repr

/-- Model of `NewMultiDomainManager`: returns nil on an empty domain list,
otherwise the first domain becomes the primary domain, the challenge
type defaults to Webroot and the key size to 2048.  `certDir` stands
for `config.GetCertDir()`. -/
def NewMultiDomainManager (domains : List String) (email certDir : String) :
    Option MultiDomainManager :=
  match domains with
  | [] => none
  | d :: _ =>
    some { domains := domains, primaryDomain := d, email := email,
           challengeType := ChallengeWebroot, webrootPath := "",
           webServerType := WebServerNginx, certDir := certDir,
           keySize := 2048 }

/-- Model of `hasWildcardDomain`. -/
def MultiDomainManager.hasWildcardDomain (m : MultiDomainManager) : Bool :=
  m.domains.any (fun d => startsWith d "*.")

/-- The directory-name derivation duplicated in `createCertDir`,
`getCertPath`, `getKeyPath`, `getChainPath`, `getDomainsListPath`:
primary domain, with a `_san` suffix when the set has more than one
member. -/
def MultiDomainManager.dirName (m : MultiDomainManager) : String :=
  if m.domains.length > 1 then m.primaryDomain ++ "_san"
  else m.primaryDomain

/-- Model of `getCertPath`. -/
def MultiDomainManager.getCertPath (m : MultiDomainManager) : String :=
  pathJoin (pathJoin m.certDir m.dirName) "cert.pem"

/-- Model of `getKeyPath`. -/
def MultiDomainManager.getKeyPath (m : MultiDomainManager) : String :=
  pathJoin (pathJoin m.certDir m.dirName) "key.pem"

/-- Model of `getChainPath`. -/
def MultiDomainManager.getChainPath (m : MultiDomainManager) : String :=
  pathJoin (pathJoin m.certDir m.dirName) "chain.pem"

/-- Model of `getDomainsListPath`. -/
def MultiDomainManager.getDomainsListPath (m : MultiDomainManager) :
    String :=
  pathJoin (pathJoin m.certDir m.dirName) "domains.txt"

/-- Model of `createCertDir` of the multi-domain manager. -/
def MultiDomainManager.createCertDir (e : Env) (m : MultiDomainManager)
    (fs : FS) : Except Unit FS :=
  if e.mkdirFails then .error ()
  else .ok (setFile fs (pathJoin m.certDir m.dirName) .dir)

/-- Model of `generatePrivateKey` of the multi-domain manager. -/
def MultiDomainManager.generatePrivateKey (e : Env)
    (m : MultiDomainManager) (fs : FS) : Except Unit FS :=
  if e.keyGenFails then .error ()
  else .ok (setFile fs m.getKeyPath .keyPEM)

/-- Model of `createMultiDomainCSR`: CN is the primary domain, SAN list is the
whole domain set. -/
def MultiDomainManager.createMultiDomainCSR (e : Env)
    (m : MultiDomainManager) : Except Unit CSRData :=
  if e.csrFails then .error ()
  else .ok { commonName := m.primaryDomain, dnsNames := m.domains }

/-- Model of `obtainCertificate` of the multi-domain manager: Webroot and
Standalone re-check `hasWildcardDomain` and refuse wildcards; DNS always
proceeds; all three end in the self-signed stub. -/
def MultiDomainManager.obtainCertificate (e : Env)
    (m : MultiDomainManager) (csr : CSRData) : Except Unit CertData :=
  if m.challengeType = ChallengeWebroot then
    if m.hasWildcardDomain then .error () else generateSelfSignedCert e csr
  else if m.challengeType = ChallengeStandalone then
    if m.hasWildcardDomain then .error () else generateSelfSignedCert e csr
  else if m.challengeType = ChallengeDNS then generateSelfSignedCert e csr
  else .error ()

/-- Model of `saveCertificate` of the multi-domain manager: writes `cert.pem`,
then writes `domains.txt` (the domain set joined by newlines); a failure
of the `domains.txt` write is only logged (`logger.Warn`) and does not
make the step fail. -/
def MultiDomainManager.saveCertificate (e : Env) (m : MultiDomainManager)
    (cert : CertData) (fs : FS) : Except Unit FS :=
  if e.certWriteFails then .error ()
  else
    let fs1 := setFile fs m.getCertPath (.certPEM cert)
    if e.domainsWriteFails then .ok fs1
    else .ok (setFile fs1 m.getDomainsListPath
        (.text (joinSep "\n" m.domains)))

/-- Model of `configureWebServers`: the per-type configurators are logging stubs
returning nil; an unknown type hits the `default` branch and errors. -/
def MultiDomainManager.configureWebServers (m : MultiDomainManager) :
    Except Unit Unit :=
  if m.webServerType = WebServerNginx then .ok ()
  else if m.webServerType = WebServerApache then .ok ()
  else if m.webServerType = WebServerIIS then .ok ()
  else .error ()

/-- Model of `MultiDomainManager.Install`: first the wildcard/DNS defence check,
then the same six-stage pipeline as the single-domain manager. -/
def MultiDomainManager.Install (e : Env) (m : MultiDomainManager)
    (fs : FS) : Except InstallError Unit × FS :=
  if m.hasWildcardDomain && !(m.challengeType = ChallengeDNS) then
    (.error .wildcardRequiresDNS, fs)
  else
    match m.createCertDir e fs with
    | .error _ => (.error .createCertDirFailed, fs)
    | .ok fs1 =>
      match m.generatePrivateKey e fs1 with
      | .error _ => (.error .generateKeyFailed, fs1)
      | .ok fs2 =>
        match m.createMultiDomainCSR e with
        | .error _ => (.error .createCSRFailed, fs2)
        | .ok csr =>
          match m.obtainCertificate e csr with
          | .error _ => (.error .obtainCertificateFailed, fs2)
          | .ok cert =>
            match m.saveCertificate e cert fs2 with
            | .error _ => (.error .saveCertificateFailed, fs2)
            | .ok fs3 =>
              match m.configureWebServers with
              | .error _ => (.error .configureWebServerFailed, fs3)
              | .ok _ => (.ok (), fs3)

/-- An environment in which no injected failure occurs. -/
def cleanEnv (t : Nat) : Env :=
  { now := t, mkdirFails := false, keyGenFails := false, csrFails := false,
    selfSignFails := false, certWriteFails := false,
    domainsWriteFails := false }

/-- The loop body state of `checkSSLInConfig`: whether the scan is inside
a server block, and whether that block has shown an `ssl_certificate`
directive and a matching `server_name` so far.  Entering a block is
triggered by any line containing `server {`; leaving by any line
containing `}` while inside. -/
def checkSSLLoop (domain : String) (inB hasSSL hasDom : Bool) :
    List String → Bool
  | [] => false
  | l :: rest =>
    let line := goTrimSpace l
    if goContains line "server \x7b" then
      checkSSLLoop domain true false false rest
    else if goContains line "\x7d" && inB then
      if hasSSL && hasDom then true
      else checkSSLLoop domain false hasSSL hasDom rest
    else if inB then
      checkSSLLoop domain true
        (hasSSL || goContains line "ssl_certificate")
        (hasDom || (goContains line "server_name" && goContains line domain))
        rest
    else checkSSLLoop domain inB hasSSL hasDom rest

/-- Model of `checkSSLInConfig` of the Nginx configurator, over the lines of one
site-configuration file. -/
def checkSSLInConfig (lines : List String) (domain : String) : Bool :=
  checkSSLLoop domain false false false lines

/-- Model of `IsSSLEnabled`: scans every discoverable site-config file and
reports true when any of them passes `checkSSLInConfig`. -/
def IsSSLEnabled (configFiles : List (List String)) (domain : String) :
    Bool :=
  configFiles.any (fun f => checkSSLInConfig f domain)

/-- A configuration line that neither opens a server block nor contains a
closing brace (after trimming). -/
def plainLine (l : String) : Bool :=
  !goContains (goTrimSpace l) "server \x7b" &&
    !goContains (goTrimSpace l) "\x7d"

/-- Line carrying an `ssl_certificate` directive, as the scan sees it. -/
def sslLine (l : String) : Bool :=
  goContains (goTrimSpace l) "ssl_certificate"

/-- Line carrying a `server_name` that matches the queried domain, as the
scan sees it. -/
def nameLine (domain l : String) : Bool :=
  goContains (goTrimSpace l) "server_name" &&
    goContains (goTrimSpace l) domain

/-- A server block with the given body lines, as written in an Nginx site
configuration. -/
def renderBlock (body : List String) : List String :=
  "server \x7b" :: body ++ ["\x7d"]

/-- A site-configuration file that is a sequence of server blocks. -/
def renderBlocks (blocks : List (List String)) : List String :=
  blocks.flatMap renderBlock

/-- A block whose body contains both an `ssl_certificate` directive and a
`server_name` matching the domain. -/
def blockHasBoth (domain : String) (b : List String) : Bool :=
  b.any sslLine && b.any (nameLine domain)

/-- The certificate the single-domain self-signed stub issues. -/
def singleCert (e : Env) (m : Manager) : CertData :=
  { subjectCN := m.domain, dnsNames := [m.domain], notBefore := e.now,
    notAfter := e.now + 90 * goDay }

/-- The certificate the multi-domain self-signed stub issues. -/
def multiCert (e : Env) (m : MultiDomainManager) : CertData :=
  { subjectCN := m.primaryDomain, dnsNames := m.domains,
    notBefore := e.now, notAfter := e.now + 90 * goDay }

/-- A challenge-type value the single-domain `obtainCertificate` switch
accepts. -/
def chOK (m : Manager) : Prop :=
  m.challengeType = ChallengeWebroot ∨
    m.challengeType = ChallengeStandalone ∨ m.challengeType = ChallengeDNS

instance (m : Manager) : Decidable (chOK m) := by
  unfold chOK; infer_instance

/-- A web-server value the `configureWebServer` switch accepts. -/
def wsOK (m : Manager) : Prop :=
  m.webServerType = WebServerNginx ∨ m.webServerType = WebServerApache ∨
    m.webServerType = WebServerIIS

instance (m : Manager) : Decidable (wsOK m) := by
  unfold wsOK; infer_instance

/-- A challenge-type value the multi-domain `obtainCertificate` switch
accepts. -/
def mchOK (m : MultiDomainManager) : Prop :=
  m.challengeType = ChallengeWebroot ∨
    m.challengeType = ChallengeStandalone ∨ m.challengeType = ChallengeDNS

instance (m : MultiDomainManager) : Decidable (mchOK m) := by
  unfold mchOK; infer_instance

/-- A web-server value the `configureWebServers` switch accepts. -/
def mwsOK (m : MultiDomainManager) : Prop :=
  m.webServerType = WebServerNginx ∨ m.webServerType = WebServerApache ∨
    m.webServerType = WebServerIIS

instance (m : MultiDomainManager) : Decidable (mwsOK m) := by
  unfold mwsOK; infer_instance

/-- The file system a fully successful single-domain `Install` leaves
behind: certificate directory, `key.pem`, then `cert.pem`. -/
def singleSuccessFS (e : Env) (m : Manager) (fs : FS) : FS :=
  setFile
    (setFile (setFile fs (pathJoin m.certDir m.domain) .dir)
      m.getKeyPath .keyPEM)
    m.getCertPath (.certPEM (singleCert e m))

/-- The file system a fully successful multi-domain `Install` leaves
behind when the `domains.txt` write also succeeds. -/
def multiSuccessFS (e : Env) (m : MultiDomainManager) (fs : FS) : FS :=
  setFile
    (setFile
      (setFile (setFile fs (pathJoin m.certDir m.dirName) .dir)
        m.getKeyPath .keyPEM)
      m.getCertPath (.certPEM (multiCert e m)))
    m.getDomainsListPath (.text (joinSep "\n" m.domains))

/-- Concrete single-domain manager used by witnesses. -/
def wmanager : Manager := NewManager "example.com" "admin@example.com"
  "/certs"

/-- Store with a certificate far from expiry (100 days). -/
def wfsFresh : FS :=
  [("/certs/example.com/cert.pem",
    .certPEM { subjectCN := "example.com", dnsNames := ["example.com"],
               notBefore := 0, notAfter := 100 * goDay })]

/-- Store with a certificate about to expire. -/
def wfsStale : FS :=
  [("/certs/example.com/cert.pem",
    .certPEM { subjectCN := "example.com", dnsNames := ["example.com"],
               notBefore := 0, notAfter := 10 })]

/-- Concrete two-domain manager for the C8 counterexample. -/
def sanManager : MultiDomainManager :=
  { domains := ["a.com", "b.com"], primaryDomain := "a.com",
    email := "a@b.c", challengeType := ChallengeDNS, webrootPath := "",
    webServerType := WebServerNginx, certDir := "/certs",
    keySize := 2048 }

/-! ## Theorems -/

theorem getFile_setFile_same (fs : FS) (p : String) (c : FileContent) :
    getFile (setFile fs p c) p = some c := by
  simp [getFile, setFile]

theorem getFile_setFile_ne (fs : FS) (p q : String) (c : FileContent)
    (h : q ≠ p) : getFile (setFile fs p c) q = getFile fs q := by
  have hb : (p == q) = false := beq_eq_false_iff_ne.mpr (Ne.symm h)
  simp [getFile, setFile, List.find?, hb]

theorem single_obtain_eq (e : Env) (m : Manager) (csr : CSRData) :
    m.obtainCertificate e csr =
      if chOK m then
        (if e.selfSignFails then .error () else
          .ok { subjectCN := csr.commonName, dnsNames := csr.dnsNames,
                notBefore := e.now, notAfter := e.now + 90 * goDay })
      else .error () := by
  unfold Manager.obtainCertificate generateSelfSignedCert chOK
  by_cases hc0 : m.challengeType = ChallengeWebroot
  · simp [hc0]
  by_cases hc1 : m.challengeType = ChallengeStandalone
  · simp [hc0, hc1]
  by_cases hc2 : m.challengeType = ChallengeDNS
  · simp [hc0, hc1, hc2]
  simp [hc0, hc1, hc2]

theorem single_configure_eq (m : Manager) :
    m.configureWebServer = if wsOK m then .ok () else .error () := by
  unfold Manager.configureWebServer wsOK
  by_cases hw0 : m.webServerType = WebServerNginx
  · simp [hw0]
  by_cases hw1 : m.webServerType = WebServerApache
  · simp [hw0, hw1]
  by_cases hw2 : m.webServerType = WebServerIIS
  · simp [hw0, hw1, hw2]
  simp [hw0, hw1, hw2]

/-- Normal form of `Manager.Install` as a decision chain over the
environment's failure flags and the manager's enum fields. -/
theorem single_install_eq (e : Env) (m : Manager) (fs : FS) :
    Manager.Install e m fs =
      if e.mkdirFails then (.error .createCertDirFailed, fs) else
      let fs1 := setFile fs (pathJoin m.certDir m.domain) .dir
      if e.keyGenFails then (.error .generateKeyFailed, fs1) else
      let fs2 := setFile fs1 m.getKeyPath .keyPEM
      if e.csrFails then (.error .createCSRFailed, fs2) else
      if ¬chOK m then (.error .obtainCertificateFailed, fs2) else
      if e.selfSignFails then (.error .obtainCertificateFailed, fs2) else
      if e.certWriteFails then (.error .saveCertificateFailed, fs2) else
      let fs3 := setFile fs2 m.getCertPath (.certPEM (singleCert e m))
      if ¬wsOK m then (.error .configureWebServerFailed, fs3) else
      (.ok (), fs3) := by
  unfold Manager.Install Manager.createCertDir Manager.generatePrivateKey
    Manager.createCSR Manager.saveCertificate
  rw [single_configure_eq]
  by_cases h1 : e.mkdirFails
  · simp [h1]
  by_cases h2 : e.keyGenFails
  · simp [h1, h2]
  by_cases h3 : e.csrFails
  · simp [h1, h2, h3]
  simp only [single_obtain_eq]
  by_cases hc : chOK m
  · by_cases h4 : e.selfSignFails
    · simp [h1, h2, h3, hc, h4]
    by_cases h5 : e.certWriteFails
    · simp [h1, h2, h3, hc, h4, h5]
    by_cases hw : wsOK m
    · simp [h1, h2, h3, hc, h4, h5, hw, singleCert]
    · simp [h1, h2, h3, hc, h4, h5, hw, singleCert]
  · simp [h1, h2, h3, hc]

theorem multi_obtain_eq (e : Env) (m : MultiDomainManager) (csr : CSRData)
    (hok : m.hasWildcardDomain = false ∨ m.challengeType = ChallengeDNS) :
    m.obtainCertificate e csr =
      if mchOK m then
        (if e.selfSignFails then .error () else
          .ok { subjectCN := csr.commonName, dnsNames := csr.dnsNames,
                notBefore := e.now, notAfter := e.now + 90 * goDay })
      else .error () := by
  unfold MultiDomainManager.obtainCertificate generateSelfSignedCert mchOK
  by_cases hc0 : m.challengeType = ChallengeWebroot
  · rcases hok with h | h
    · simp [hc0, h]
    · rw [hc0] at h; exact absurd h (by decide)
  by_cases hc1 : m.challengeType = ChallengeStandalone
  · rcases hok with h | h
    · simp [hc0, hc1, h]
    · rw [hc1] at h; exact absurd h (by decide)
  by_cases hc2 : m.challengeType = ChallengeDNS
  · simp [hc0, hc1, hc2, ChallengeWebroot, ChallengeStandalone,
      ChallengeDNS]
  simp [hc0, hc1, hc2]

theorem multi_configure_eq (m : MultiDomainManager) :
    m.configureWebServers = if mwsOK m then .ok () else .error () := by
  unfold MultiDomainManager.configureWebServers mwsOK
  by_cases hw0 : m.webServerType = WebServerNginx
  · simp [hw0]
  by_cases hw1 : m.webServerType = WebServerApache
  · simp [hw0, hw1]
  by_cases hw2 : m.webServerType = WebServerIIS
  · simp [hw0, hw1, hw2]
  simp [hw0, hw1, hw2]

/-- Normal form of the pipeline part of `MultiDomainManager.Install`,
valid whenever the wildcard/DNS guard passes. -/
theorem multi_install_noWild_eq (e : Env) (m : MultiDomainManager)
    (fs : FS)
    (hok : m.hasWildcardDomain = false ∨ m.challengeType = ChallengeDNS) :
    MultiDomainManager.Install e m fs =
      if e.mkdirFails then (.error .createCertDirFailed, fs) else
      let fs1 := setFile fs (pathJoin m.certDir m.dirName) .dir
      if e.keyGenFails then (.error .generateKeyFailed, fs1) else
      let fs2 := setFile fs1 m.getKeyPath .keyPEM
      if e.csrFails then (.error .createCSRFailed, fs2) else
      if ¬mchOK m then (.error .obtainCertificateFailed, fs2) else
      if e.selfSignFails then (.error .obtainCertificateFailed, fs2) else
      if e.certWriteFails then (.error .saveCertificateFailed, fs2) else
      let fs3 := setFile fs2 m.getCertPath (.certPEM (multiCert e m))
      let fs4 := if e.domainsWriteFails then fs3
        else setFile fs3 m.getDomainsListPath
          (.text (joinSep "\n" m.domains))
      if ¬mwsOK m then (.error .configureWebServerFailed, fs4) else
      (.ok (), fs4) := by
  have hguard :
      (m.hasWildcardDomain && !(m.challengeType = ChallengeDNS)) = false := by
    rcases hok with h | h <;> simp [h]
  unfold MultiDomainManager.Install MultiDomainManager.createCertDir
    MultiDomainManager.generatePrivateKey
    MultiDomainManager.createMultiDomainCSR
    MultiDomainManager.saveCertificate
  rw [multi_configure_eq]
  simp only [hguard, Bool.false_eq_true, ite_false]
  by_cases h1 : e.mkdirFails
  · simp [h1]
  by_cases h2 : e.keyGenFails
  · simp [h1, h2]
  by_cases h3 : e.csrFails
  · simp [h1, h2, h3]
  simp only [multi_obtain_eq e m _ hok]
  by_cases hc : mchOK m
  · by_cases h4 : e.selfSignFails
    · simp [h1, h2, h3, hc, h4]
    by_cases h5 : e.certWriteFails
    · simp [h1, h2, h3, hc, h4, h5]
    by_cases h6 : e.domainsWriteFails
    · by_cases hw : mwsOK m
      · simp [h1, h2, h3, hc, h4, h5, h6, hw, multiCert]
      · simp [h1, h2, h3, hc, h4, h5, h6, hw, multiCert]
    · by_cases hw : mwsOK m
      · simp [h1, h2, h3, hc, h4, h5, h6, hw, multiCert]
      · simp [h1, h2, h3, hc, h4, h5, h6, hw, multiCert]
  · simp [h1, h2, h3, hc]

/-- The wildcard guard of `MultiDomainManager.Install` fires first and
leaves the file system untouched. -/
theorem multi_install_wildcard_eq (e : Env) (m : MultiDomainManager)
    (fs : FS) (hw : m.hasWildcardDomain = true)
    (hc : ¬m.challengeType = ChallengeDNS) :
    MultiDomainManager.Install e m fs = (.error .wildcardRequiresDNS, fs) := by
  unfold MultiDomainManager.Install
  simp [hw, hc]

theorem single_install_ok_iff (e : Env) (m : Manager) (fs : FS) :
    (Manager.Install e m fs).1 = .ok () ↔
      (e.mkdirFails = false ∧ e.keyGenFails = false ∧ e.csrFails = false ∧
        chOK m ∧ e.selfSignFails = false ∧ e.certWriteFails = false ∧
        wsOK m) := by
  rw [single_install_eq]
  by_cases h1 : e.mkdirFails
  · simp [h1]
  by_cases h2 : e.keyGenFails
  · simp [h1, h2]
  by_cases h3 : e.csrFails
  · simp [h1, h2, h3]
  by_cases hc : chOK m
  · by_cases h4 : e.selfSignFails
    · simp [h1, h2, h3, hc, h4]
    by_cases h5 : e.certWriteFails
    · simp [h1, h2, h3, hc, h4, h5]
    by_cases hw : wsOK m <;> simp [h1, h2, h3, hc, h4, h5, hw]
  · simp [h1, h2, h3, hc]

theorem single_install_ok_fs (e : Env) (m : Manager) (fs : FS)
    (h1 : e.mkdirFails = false) (h2 : e.keyGenFails = false)
    (h3 : e.csrFails = false) (hc : chOK m)
    (h4 : e.selfSignFails = false) (h5 : e.certWriteFails = false)
    (hw : wsOK m) :
    Manager.Install e m fs = (.ok (), singleSuccessFS e m fs) := by
  rw [single_install_eq]
  simp [h1, h2, h3, hc, h4, h5, hw, singleSuccessFS]

theorem multi_install_ok_iff (e : Env) (m : MultiDomainManager) (fs : FS) :
    (MultiDomainManager.Install e m fs).1 = .ok () ↔
      ((m.hasWildcardDomain = false ∨ m.challengeType = ChallengeDNS) ∧
        e.mkdirFails = false ∧ e.keyGenFails = false ∧ e.csrFails = false ∧
        mchOK m ∧ e.selfSignFails = false ∧ e.certWriteFails = false ∧
        mwsOK m) := by
  by_cases hok : m.hasWildcardDomain = false ∨ m.challengeType = ChallengeDNS
  · rw [multi_install_noWild_eq e m fs hok]
    by_cases h1 : e.mkdirFails
    · simp [h1]
    by_cases h2 : e.keyGenFails
    · simp [h1, h2]
    by_cases h3 : e.csrFails
    · simp [h1, h2, h3]
    by_cases hc : mchOK m
    · by_cases h4 : e.selfSignFails
      · simp [h1, h2, h3, hc, h4, hok]
      by_cases h5 : e.certWriteFails
      · simp [h1, h2, h3, hc, h4, h5, hok]
      by_cases hw : mwsOK m <;>
        by_cases h6 : e.domainsWriteFails <;>
        simp [h1, h2, h3, hc, h4, h5, h6, hw, hok]
    · simp [h1, h2, h3, hc]
  · obtain ⟨hw, hc⟩ := not_or.mp hok
    have hw' : m.hasWildcardDomain = true := by
      cases h : m.hasWildcardDomain
      · exact absurd h hw
      · rfl
    rw [multi_install_wildcard_eq e m fs hw' hc]
    simp [hw', hc]

theorem multi_install_ok_fs (e : Env) (m : MultiDomainManager) (fs : FS)
    (hok : m.hasWildcardDomain = false ∨ m.challengeType = ChallengeDNS)
    (h1 : e.mkdirFails = false) (h2 : e.keyGenFails = false)
    (h3 : e.csrFails = false) (hc : mchOK m)
    (h4 : e.selfSignFails = false) (h5 : e.certWriteFails = false)
    (h6 : e.domainsWriteFails = false) (hw : mwsOK m) :
    MultiDomainManager.Install e m fs = (.ok (), multiSuccessFS e m fs) := by
  rw [multi_install_noWild_eq e m fs hok]
  simp [h1, h2, h3, hc, h4, h5, h6, hw, multiSuccessFS]

theorem string_append_right_ne (a b c : String) (h : b ≠ c) :
    a ++ b ≠ a ++ c := by
  intro hh
  apply h
  have hdata : (a ++ b).data = (a ++ c).data := by rw [hh]
  rw [String.data_append, String.data_append] at hdata
  have hbc := List.append_cancel_left hdata
  cases b; cases c
  exact congrArg String.mk (by simpa using hbc)

theorem pathJoin_ne (d x y : String) (h : x ≠ y) :
    pathJoin d x ≠ pathJoin d y := by
  unfold pathJoin
  exact string_append_right_ne (d ++ "/") x y h

theorem checkSSLLoop_cons (domain : String) (inB hs hd : Bool)
    (l : String) (rest : List String) :
    checkSSLLoop domain inB hs hd (l :: rest) =
      (if goContains (goTrimSpace l) "server \x7b" then
        checkSSLLoop domain true false false rest
      else if goContains (goTrimSpace l) "\x7d" && inB then
        (if hs && hd then true else checkSSLLoop domain false hs hd rest)
      else if inB then
        checkSSLLoop domain true
          (hs || goContains (goTrimSpace l) "ssl_certificate")
          (hd || (goContains (goTrimSpace l) "server_name" &&
            goContains (goTrimSpace l) domain)) rest
      else checkSSLLoop domain inB hs hd rest) := rfl

theorem checkSSLLoop_plain_body (domain : String) (body rest : List String)
    (s d : Bool) (hb : ∀ l ∈ body, plainLine l = true) :
    checkSSLLoop domain true s d (body ++ "\x7d" :: rest) =
      if (s || body.any sslLine) && (d || body.any (nameLine domain)) then
        true
      else
        checkSSLLoop domain false (s || body.any sslLine)
          (d || body.any (nameLine domain)) rest := by
  induction body generalizing s d with
  | nil =>
    simp only [List.nil_append, List.any_nil, Bool.or_false]
    have h1 : goContains (goTrimSpace "\x7d") "server \x7b" = false := by
      decide
    have h2 : goContains (goTrimSpace "\x7d") "\x7d" = true := by decide
    rw [checkSSLLoop_cons]
    simp only [h1, h2, Bool.and_true, Bool.false_eq_true, ite_false,
      ite_true]
  | cons l ls ih =>
    have hl := hb l (List.mem_cons_self l ls)
    have hb' : ∀ x ∈ ls, plainLine x = true := fun x hx =>
      hb x (List.mem_cons_of_mem l hx)
    simp only [plainLine, Bool.and_eq_true, Bool.not_eq_true'] at hl
    obtain ⟨hns, hnb⟩ := hl
    rw [List.cons_append, checkSSLLoop_cons]
    simp only [hns, hnb, Bool.false_and, Bool.false_eq_true, ite_false,
      ite_true]
    rw [ih _ _ hb']
    simp only [List.any_cons, sslLine, nameLine, Bool.or_assoc]

theorem checkSSLLoop_blocks (domain : String)
    (blocks : List (List String)) (s d : Bool)
    (hwf : ∀ b ∈ blocks, ∀ l ∈ b, plainLine l = true) :
    checkSSLLoop domain false s d (renderBlocks blocks) =
      blocks.any (blockHasBoth domain) := by
  induction blocks generalizing s d with
  | nil => simp [renderBlocks, checkSSLLoop]
  | cons b bs ih =>
    have hb : ∀ l ∈ b, plainLine l = true := hwf b (List.mem_cons_self b bs)
    have hbs : ∀ x ∈ bs, ∀ l ∈ x, plainLine l = true := fun x hx =>
      hwf x (List.mem_cons_of_mem b hx)
    have hrender : renderBlocks (b :: bs) =
        "server \x7b" :: (b ++ "\x7d" :: renderBlocks bs) := by
      simp [renderBlocks, renderBlock]
    rw [hrender]
    have hopen : goContains (goTrimSpace "server \x7b") "server \x7b" =
        true := by decide
    rw [checkSSLLoop_cons]
    simp only [hopen, ite_true]
    rw [checkSSLLoop_plain_body domain b (renderBlocks bs) false false hb]
    simp only [Bool.false_or]
    by_cases hboth : (b.any sslLine && b.any (nameLine domain)) = true
    · simp [hboth, blockHasBoth, List.any_cons]
    · rw [if_neg (by simpa using hboth)]
      rw [ih _ _ hbs]
      simp only [List.any_cons, blockHasBoth]
      rw [Bool.eq_false_iff.mpr hboth]
      simp

theorem charsSub_single_of_mem (c : Char) (l : List Char) (h : c ∈ l) :
    charsSub [c] l = true := by
  induction l with
  | nil => cases h
  | cons a as ih =>
    rcases List.mem_cons.mp h with h1 | h2
    · subst h1
      simp [charsSub, charsPre]
    · simp [charsSub, ih h2]

theorem foldl_size_le (l : List Char) (k : Nat) :
    k ≤ l.foldl (fun n c => n + c.utf8Size) k := by
  induction l generalizing k with
  | nil => simp
  | cons c cs ih =>
    simp only [List.foldl_cons]
    exact le_trans (Nat.le_add_right k c.utf8Size) (ih (k + c.utf8Size))

theorem goLen_pos_of_cons (d : String) (c : Char) (l : List Char)
    (h : d.toList = c :: l) : 0 < goLen d := by
  unfold goLen
  rw [h]
  simp only [List.foldl_cons]
  calc 0 < c.utf8Size := c.utf8Size_pos
  _ = 0 + c.utf8Size := (Nat.zero_add _).symm
  _ ≤ _ := foldl_size_le l _

theorem toList_nil_of_goLen_zero (d : String) (h : goLen d = 0) :
    d.toList = [] := by
  cases hl : d.toList with
  | nil => rfl
  | cons c l =>
    have := goLen_pos_of_cons d c l hl
    omega

theorem startsWith_star_dot (d : String) (h : startsWith d "*." = true) :
    ∃ rest, d.toList = '*' :: '.' :: rest := by
  unfold startsWith at h
  rw [show "*.".toList = ['*', '.'] from rfl] at h
  cases hl : d.toList with
  | nil => rw [hl] at h; simp [charsPre] at h
  | cons a t =>
    cases t with
    | nil => rw [hl] at h; simp [charsPre] at h
    | cons b rest =>
      rw [hl] at h
      simp only [charsPre, Bool.and_eq_true, beq_iff_eq] at h
      obtain ⟨h1, h2, -⟩ := h
      subst h1
      subst h2
      exact ⟨rest, rfl⟩

theorem validateDomainList_none (l : List String)
    (h : validateDomainList l = none) :
    ∀ x ∈ l, x ≠ "" ∧ validateDomainName x = none := by
  induction l with
  | nil => intro x hx; cases hx
  | cons d rest ih =>
    intro x hx
    unfold validateDomainList at h
    by_cases hd : d = ""
    · rw [if_pos hd] at h; cases h
    rw [if_neg hd] at h
    cases hv : validateDomainName d with
    | some err => rw [hv] at h; cases h
    | none =>
      rw [hv] at h
      rcases List.mem_cons.mp hx with h1 | h2
      · subst h1; exact ⟨hd, hv⟩
      · exact ih h x h2

/-- C1: for every domain set containing a wildcard entry, calling
`MultiDomainManager.Install` with a Webroot or Standalone challenge type
returns the wildcard error and leaves the file system exactly as it was:
the wildcard check precedes directory creation, key generation and every
other write. -/
theorem C1_wildcard_install_rejected_before_io (e : Env)
    (m : MultiDomainManager) (fs : FS)
    (hwild : m.hasWildcardDomain = true)
    (hch : m.challengeType = ChallengeWebroot ∨
      m.challengeType = ChallengeStandalone) :
    MultiDomainManager.Install e m fs = (.error .wildcardRequiresDNS, fs) := by
  refine multi_install_wildcard_eq e m fs hwild ?_
  rcases hch with h | h <;> rw [h] <;> decide

/-- Witness for C1 at a concrete wildcard domain set with the Webroot
challenge. -/
theorem C1_wildcard_install_rejected_before_io_witness :
    MultiDomainManager.Install (cleanEnv 0)
      { domains := ["*.example.com"], primaryDomain := "*.example.com",
        email := "admin@example.com", challengeType := ChallengeWebroot,
        webrootPath := "", webServerType := WebServerNginx,
        certDir := "/certs", keySize := 2048 } [] =
      (.error .wildcardRequiresDNS, []) :=
  C1_wildcard_install_rejected_before_io (cleanEnv 0) _ [] (by decide)
    (Or.inl rfl)

/-- C2: with a parseable stored certificate, `Renew` is a success no-op
(no step of the Install pipeline runs, the file system is untouched)
when more than 30 days remain before `NotAfter`, and otherwise is
exactly the full `Install` flow, success and failure included. -/
theorem C2_renew_30day_threshold (e : Env) (m : Manager) (fs : FS)
    (c : CertData)
    (hcert : getFile fs m.getCertPath = some (.certPEM c)) :
    (e.now + 30 * goDay < c.notAfter →
      Manager.Renew e m fs = (.ok (), fs)) ∧
    (c.notAfter ≤ e.now + 30 * goDay →
      (Manager.Renew e m fs).2 = (Manager.Install e m fs).2 ∧
      ((Manager.Install e m fs).1 = .ok () →
        (Manager.Renew e m fs).1 = .ok ()) ∧
      (∀ err, (Manager.Install e m fs).1 = .error err →
        (Manager.Renew e m fs).1 = .error (.installError err))) := by
  have hinfo : Manager.GetCertInfo m e.now fs =
      .ok { Domain := m.domain, CertPath := m.getCertPath,
            KeyPath := m.getKeyPath, ChainPath := m.getChainPath,
            ExpiryDate := c.notAfter,
            IsValid := decide (e.now < c.notAfter) } := by
    unfold Manager.GetCertInfo
    rw [hcert]
  constructor
  · intro hgt
    have hlt : 30 * goDay < c.notAfter - e.now := by omega
    unfold Manager.Renew
    rw [hinfo]
    simp [hlt]
  · intro hle
    have hnlt : ¬(30 * goDay < c.notAfter - e.now) := by omega
    unfold Manager.Renew
    rw [hinfo]
    simp only [hnlt, ite_false]
    cases hI : Manager.Install e m fs with
    | mk r fs' =>
      cases r with
      | ok u => cases u; simp
      | error err => simp

/-- Witness for C2: a fresh certificate makes `Renew` a no-op; a stale
one routes `Renew` through `Install`. -/
theorem C2_renew_30day_threshold_witness :
    Manager.Renew (cleanEnv 0) wmanager wfsFresh = (.ok (), wfsFresh) ∧
    (Manager.Renew (cleanEnv 0) wmanager wfsStale).2 =
      (Manager.Install (cleanEnv 0) wmanager wfsStale).2 :=
  ⟨(C2_renew_30day_threshold (cleanEnv 0) wmanager wfsFresh
      { subjectCN := "example.com", dnsNames := ["example.com"],
        notBefore := 0, notAfter := 100 * goDay } rfl).1 (by decide),
   ((C2_renew_30day_threshold (cleanEnv 0) wmanager wfsStale
      { subjectCN := "example.com", dnsNames := ["example.com"],
        notBefore := 0, notAfter := 10 } rfl).2 (by decide)).1⟩

/-- C3: whenever `Manager.Install` succeeds (every challenge type ends in
the self-signed stub), `GetCertInfo` read at installation time succeeds,
reports a valid certificate, and reports an expiry of exactly
installation time plus 90 days. -/
theorem C3_install_getCertInfo_roundtrip (e : Env) (m : Manager) (fs : FS)
    (hok : (Manager.Install e m fs).1 = .ok ()) :
    ∃ info, Manager.GetCertInfo m e.now (Manager.Install e m fs).2 =
        .ok info ∧
      info.IsValid = true ∧ info.ExpiryDate = e.now + 90 * goDay := by
  obtain ⟨h1, h2, h3, hc, h4, h5, hw⟩ :=
    (single_install_ok_iff e m fs).mp hok
  rw [single_install_ok_fs e m fs h1 h2 h3 hc h4 h5 hw]
  refine ⟨{ Domain := m.domain, CertPath := m.getCertPath,
            KeyPath := m.getKeyPath, ChainPath := m.getChainPath,
            ExpiryDate := (singleCert e m).notAfter,
            IsValid := decide (e.now < (singleCert e m).notAfter) },
    ?_, ?_, ?_⟩
  · unfold Manager.GetCertInfo singleSuccessFS
    rw [getFile_setFile_same]
  · simp only [singleCert, goDay, goHour, decide_eq_true_eq]
    omega
  · rfl

/-- Witness for C3 with a clean environment and empty store. -/
theorem C3_install_getCertInfo_roundtrip_witness :
    ∃ info, Manager.GetCertInfo wmanager 0
        (Manager.Install (cleanEnv 0) wmanager []).2 = .ok info ∧
      info.IsValid = true ∧ info.ExpiryDate = 0 + 90 * goDay :=
  C3_install_getCertInfo_roundtrip (cleanEnv 0) wmanager [] rfl

/-- C7: `GetCertInfo` fails with the not-found error when `cert.pem` is
absent, the unreadable error when its content does not decode as PEM,
the parse error when the PEM payload is not a valid certificate; on
success `IsValid` is exactly `now < NotAfter` (independent of
`NotBefore`), and the result never depends on any other file, in
particular not on `chain.pem`. -/
theorem C7_getCertInfo_error_taxonomy (m : Manager) (now : Nat) (fs : FS) :
    (getFile fs m.getCertPath = none →
      Manager.GetCertInfo m now fs = .error .certificateNotFound) ∧
    (getFile fs m.getCertPath = some .rawBytes →
      Manager.GetCertInfo m now fs = .error .certificateUnreadable) ∧
    (getFile fs m.getCertPath = some .pemBadDER →
      Manager.GetCertInfo m now fs = .error .certificateParseError) ∧
    (∀ c, getFile fs m.getCertPath = some (.certPEM c) →
      Manager.GetCertInfo m now fs =
        .ok { Domain := m.domain, CertPath := m.getCertPath,
              KeyPath := m.getKeyPath, ChainPath := m.getChainPath,
              ExpiryDate := c.notAfter,
              IsValid := decide (now < c.notAfter) }) ∧
    (∀ p c, p ≠ m.getCertPath →
      Manager.GetCertInfo m now (setFile fs p c) =
        Manager.GetCertInfo m now fs) := by
  refine ⟨?_, ?_, ?_, ?_, ?_⟩
  · intro h; unfold Manager.GetCertInfo; rw [h]
  · intro h; unfold Manager.GetCertInfo; rw [h]
  · intro h; unfold Manager.GetCertInfo; rw [h]
  · intro c h; unfold Manager.GetCertInfo; rw [h]
  · intro p c hp
    unfold Manager.GetCertInfo
    rw [getFile_setFile_ne fs p m.getCertPath c (Ne.symm hp)]

/-- Witness for C7 covering each error case, the success shape and the
chain-file independence at concrete stores. -/
theorem C7_getCertInfo_error_taxonomy_witness :
    Manager.GetCertInfo wmanager 5 [] = .error .certificateNotFound ∧
    Manager.GetCertInfo wmanager 5
        [("/certs/example.com/cert.pem", .rawBytes)] =
      .error .certificateUnreadable ∧
    Manager.GetCertInfo wmanager 5
        [("/certs/example.com/cert.pem", .pemBadDER)] =
      .error .certificateParseError ∧
    Manager.GetCertInfo wmanager 5 wfsFresh =
      .ok { Domain := "example.com",
            CertPath := "/certs/example.com/cert.pem",
            KeyPath := "/certs/example.com/key.pem",
            ChainPath := "/certs/example.com/chain.pem",
            ExpiryDate := 100 * goDay, IsValid := true } ∧
    Manager.GetCertInfo wmanager 5
        (setFile wfsFresh "/certs/example.com/chain.pem" .rawBytes) =
      Manager.GetCertInfo wmanager 5 wfsFresh := by
  refine ⟨(C7_getCertInfo_error_taxonomy wmanager 5 []).1 rfl,
    (C7_getCertInfo_error_taxonomy wmanager 5 _).2.1 rfl,
    (C7_getCertInfo_error_taxonomy wmanager 5 _).2.2.1 rfl, ?_,
    (C7_getCertInfo_error_taxonomy wmanager 5 wfsFresh).2.2.2.2
      "/certs/example.com/chain.pem" .rawBytes (by decide)⟩
  have h := (C7_getCertInfo_error_taxonomy wmanager 5 wfsFresh).2.2.2.1
    { subjectCN := "example.com", dnsNames := ["example.com"],
      notBefore := 0, notAfter := 100 * goDay } rfl
  exact h.trans (by rfl)

/-- C10: `NewMultiDomainManager` returns nil exactly on the empty domain
list; on any non-empty list it returns a manager whose primary domain is
the head of the list, with the Webroot default challenge and a 2048-bit
default key size — the emptiness guard is what makes the head access
well-defined. -/
theorem C10_new_multi_manager_empty_guard :
    (∀ email certDir, NewMultiDomainManager [] email certDir = none) ∧
    (∀ (l : List String) email certDir, l ≠ [] →
      ∃ mm, NewMultiDomainManager l email certDir = some mm ∧
        mm.primaryDomain = l.headI ∧ mm.domains = l ∧
        mm.challengeType = ChallengeWebroot ∧ mm.keySize = 2048) := by
  constructor
  · intro email certDir; rfl
  · intro l email certDir hl
    cases l with
    | nil => exact absurd rfl hl
    | cons d ds => exact ⟨_, rfl, rfl, rfl, rfl, rfl⟩

/-- Witness for C10 on the empty list and on a two-element list. -/
theorem C10_new_multi_manager_empty_guard_witness :
    NewMultiDomainManager [] "a@b.c" "/certs" = none ∧
    ∃ mm, NewMultiDomainManager ["example.com", "www.example.com"]
        "a@b.c" "/certs" = some mm ∧
      mm.primaryDomain = ["example.com", "www.example.com"].headI ∧
      mm.domains = ["example.com", "www.example.com"] ∧
      mm.challengeType = ChallengeWebroot ∧ mm.keySize = 2048 :=
  ⟨C10_new_multi_manager_empty_guard.1 "a@b.c" "/certs",
   C10_new_multi_manager_empty_guard.2 ["example.com", "www.example.com"]
     "a@b.c" "/certs" (by decide)⟩

/-- C6: store layout — a one-element domain set stores under the domain
itself, a larger set under `<primary>_san`; a successful multi-domain
install whose `domains.txt` write succeeds records the member domains
one per line in input order; and both managers derive the `cert.pem`,
`key.pem` and `chain.pem` paths inside that same directory. -/
theorem C6_store_layout :
    (∀ m : MultiDomainManager, m.domains.length = 1 →
      m.dirName = m.primaryDomain) ∧
    (∀ m : MultiDomainManager, 1 < m.domains.length →
      m.dirName = m.primaryDomain ++ "_san") ∧
    (∀ (e : Env) (m : MultiDomainManager) (fs : FS),
      e.domainsWriteFails = false →
      (MultiDomainManager.Install e m fs).1 = .ok () →
      getFile (MultiDomainManager.Install e m fs).2 m.getDomainsListPath =
        some (.text (joinSep "\n" m.domains))) ∧
    (∀ m : MultiDomainManager,
      m.getCertPath = pathJoin (pathJoin m.certDir m.dirName) "cert.pem" ∧
      m.getKeyPath = pathJoin (pathJoin m.certDir m.dirName) "key.pem" ∧
      m.getChainPath =
        pathJoin (pathJoin m.certDir m.dirName) "chain.pem" ∧
      m.getDomainsListPath =
        pathJoin (pathJoin m.certDir m.dirName) "domains.txt") ∧
    (∀ m : Manager,
      m.getCertPath = pathJoin (pathJoin m.certDir m.domain) "cert.pem" ∧
      m.getKeyPath = pathJoin (pathJoin m.certDir m.domain) "key.pem" ∧
      m.getChainPath =
        pathJoin (pathJoin m.certDir m.domain) "chain.pem") := by
  refine ⟨?_, ?_, ?_, ?_, ?_⟩
  · intro m h
    unfold MultiDomainManager.dirName
    rw [h]
    simp
  · intro m h
    unfold MultiDomainManager.dirName
    rw [if_pos h]
  · intro e m fs h6 hok
    obtain ⟨hw0, h1, h2, h3, hc, h4, h5, hw⟩ :=
      (multi_install_ok_iff e m fs).mp hok
    rw [multi_install_ok_fs e m fs hw0 h1 h2 h3 hc h4 h5 h6 hw]
    exact getFile_setFile_same _ _ _
  · intro m; exact ⟨rfl, rfl, rfl, rfl⟩
  · intro m; exact ⟨rfl, rfl, rfl⟩

/-- Witness for C6: the spec's two examples, plus the recorded
`domains.txt` content after a successful SAN install. -/
theorem C6_store_layout_witness :
    ({ domains := ["example.com"], primaryDomain := "example.com",
       email := "a@b.c", challengeType := ChallengeWebroot,
       webrootPath := "", webServerType := WebServerNginx,
       certDir := "/certs", keySize := 2048 } :
        MultiDomainManager).dirName = "example.com" ∧
    ({ domains := ["example.com", "www.example.com"],
       primaryDomain := "example.com",
       email := "a@b.c", challengeType := ChallengeWebroot,
       webrootPath := "", webServerType := WebServerNginx,
       certDir := "/certs", keySize := 2048 } :
        MultiDomainManager).dirName = "example.com" ++ "_san" ∧
    getFile
      (MultiDomainManager.Install (cleanEnv 0)
        { domains := ["example.com", "www.example.com"],
          primaryDomain := "example.com",
          email := "a@b.c", challengeType := ChallengeWebroot,
          webrootPath := "", webServerType := WebServerNginx,
          certDir := "/certs", keySize := 2048 } []).2
      ({ domains := ["example.com", "www.example.com"],
         primaryDomain := "example.com",
         email := "a@b.c", challengeType := ChallengeWebroot,
         webrootPath := "", webServerType := WebServerNginx,
         certDir := "/certs", keySize := 2048 } :
          MultiDomainManager).getDomainsListPath =
      some (.text (joinSep "\n" ["example.com", "www.example.com"])) :=
  ⟨C6_store_layout.1 _ (by decide),
   C6_store_layout.2.1 _ (by decide),
   C6_store_layout.2.2.1 (cleanEnv 0) _ [] rfl rfl⟩

/-- C4 counterexample: `a*b*c.com` contains two `*` characters, yet
`validateDomainName` accepts it (the extra-star check only runs for
domains starting with the wildcard marker), and the install command's
`parseDomains` accepts it as well. -/
theorem C4_counterexample_multi_star_accepted :
    1 < "a*b*c.com".toList.count '*' ∧
    validateDomainName "a*b*c.com" = none ∧
    parseDomains "" "a*b*c.com" = .ok ["a*b*c.com"] :=
  ⟨by decide, by decide, rfl⟩

/-- C4 amended: a domain that starts with the wildcard marker and
contains more than one `*`, or any domain containing a space character,
is rejected by `validateDomainName`; and `parseDomains` only ever
returns lists whose every entry is non-empty and passes
`validateDomainName`.  (A `*` repeated in a domain that does not start
with the wildcard marker, and whitespace other than the space
character, are not rejected.) -/
theorem C4_amended_domain_validation :
    (∀ d : String, startsWith d "*." = true → 1 < d.toList.count '*' →
      (validateDomainName d).isSome = true) ∧
    (∀ d : String, goContains d " " = true →
      (validateDomainName d).isSome = true) ∧
    (∀ (domainsFlag domainFlag : String) (l : List String),
      parseDomains domainsFlag domainFlag = .ok l →
      ∀ x ∈ l, x ≠ "" ∧ validateDomainName x = none) := by
  refine ⟨?_, ?_, ?_⟩
  · intro d hpre hcount
    obtain ⟨rest, hd⟩ := startsWith_star_dot d hpre
    unfold validateDomainName
    have hlen : 0 < goLen d := goLen_pos_of_cons d '*' _ hd
    rw [if_neg (by omega)]
    rw [if_pos hpre]
    by_cases hl4 : goLen d < 4
    · rw [if_pos hl4]; rfl
    rw [if_neg hl4]
    have hmem : '*' ∈ rest := by
      rw [hd] at hcount
      simp [List.count_cons] at hcount
      exact hcount
    have hsub : goContains (String.mk (d.toList.drop 2)) "*" = true := by
      rw [hd]
      unfold goContains
      have hrl : (String.mk rest).toList = rest := rfl
      rw [show ('*' :: '.' :: rest).drop 2 = rest from rfl, hrl]
      exact charsSub_single_of_mem '*' rest hmem
    rw [if_pos hsub]
    rfl
  · intro d hsp
    unfold validateDomainName
    by_cases h0 : goLen d = 0
    · exfalso
      have hnil := toList_nil_of_goLen_zero d h0
      unfold goContains at hsp
      rw [hnil] at hsp
      exact absurd hsp (by decide)
    rw [if_neg h0]
    by_cases hsw : startsWith d "*." = true
    · rw [if_pos hsw]
      by_cases hl4 : goLen d < 4
      · rw [if_pos hl4]; rfl
      rw [if_neg hl4]
      by_cases hstar : goContains (String.mk (d.toList.drop 2)) "*" = true
      · rw [if_pos hstar]; rfl
      rw [if_neg hstar, if_pos hsp]; rfl
    · rw [if_neg hsw, if_pos hsp]; rfl
  · intro df d l hok x hx
    unfold parseDomains at hok
    split at hok
    · split at hok
      · simp at hok
      · rename_i hv
        cases hok
        exact validateDomainList_none _ hv x hx
    · split at hok
      · split at hok
        · simp at hok
        · rename_i hv
          cases hok
          exact validateDomainList_none _ hv x hx
      · simp at hok

/-- Witness for C4 amended: a wildcard domain with a second star and a
domain with a space are rejected; a well-formed parsed entry passes
validation. -/
theorem C4_amended_domain_validation_witness :
    (validateDomainName "*.a*.com").isSome = true ∧
    (validateDomainName "exa mple.com").isSome = true ∧
    ("www.example.com" ≠ "" ∧
      validateDomainName "www.example.com" = none) :=
  ⟨C4_amended_domain_validation.1 "*.a*.com" (by decide) (by decide),
   C4_amended_domain_validation.2.1 "exa mple.com" (by decide),
   C4_amended_domain_validation.2.2 "www.example.com,api.example.com" ""
     ["www.example.com", "api.example.com"] rfl "www.example.com"
     (by simp)⟩

theorem webserver_guard (f : InstallFlags) (h : webServerCount f = 1) :
    (!f.nginx && !f.apache && !f.iis) = false := by
  rcases f with ⟨s, w, dc, n, a, i⟩
  cases n <;> cases a <;> cases i <;> simp_all [webServerCount]

/-- C5 counterexample: with one web-server flag, both `--standalone` and
`--webroot` set (two mode flags) and a wildcard domain without `--dns`,
`validateInstallFlags` reports `WildcardRequiresDNS`, not the
mode-conflict error the claim requires. -/
theorem C5_counterexample_conflict_masked_by_wildcard :
    1 < challengeModeCount
        { standalone := true, webroot := "/var/www/html",
          dnsChallenge := false, nginx := true, apache := false,
          iis := false } ∧
    validateInstallFlags
        { standalone := true, webroot := "/var/www/html",
          dnsChallenge := false, nginx := true, apache := false,
          iis := false } ["*.example.com"] =
      some .wildcardRequiresDNS ∧
    some FlagError.wildcardRequiresDNS ≠
      some FlagError.invalidChallengeConfiguration :=
  ⟨by decide, by decide, by decide⟩

/-- C5 amended: with the web-server flag checks passing (exactly one of
nginx/apache/iis), `validateInstallFlags` fails with
`WildcardRequiresDNS` whenever a wildcard domain is present without the
DNS flag — this check runs before the mode-conflict check, so it also
masks simultaneous mode conflicts —, otherwise fails with
`InvalidChallengeConfiguration` whenever more than one mode flag is set,
and otherwise passes; the selection then always assigns exactly one
challenge type, Webroot by default when no mode flag is given. -/
theorem C5_amended_challenge_selection :
    (∀ (f : InstallFlags) (dl : List String), webServerCount f = 1 →
      hasWildcardList dl = true → f.dnsChallenge = false →
      validateInstallFlags f dl = some .wildcardRequiresDNS) ∧
    (∀ (f : InstallFlags) (dl : List String), webServerCount f = 1 →
      (hasWildcardList dl = true → f.dnsChallenge = true) →
      1 < challengeModeCount f →
      validateInstallFlags f dl = some .invalidChallengeConfiguration) ∧
    (∀ (f : InstallFlags) (dl : List String), webServerCount f = 1 →
      (hasWildcardList dl = true → f.dnsChallenge = true) →
      challengeModeCount f ≤ 1 →
      validateInstallFlags f dl = none) ∧
    (∀ (f : InstallFlags) (d : String), f.standalone = false →
      f.webroot = "" → f.dnsChallenge = false →
      startsWith d "*." = false →
      selectedChallengeSingle f d = ChallengeWebroot) ∧
    (∀ (f : InstallFlags) (dl : List String), f.standalone = false →
      f.webroot = "" → f.dnsChallenge = false →
      hasWildcardList dl = false →
      selectedChallengeMulti f dl = ChallengeWebroot) ∧
    (∀ (f : InstallFlags) (d : String),
      selectedChallengeSingle f d = ChallengeWebroot ∨
      selectedChallengeSingle f d = ChallengeStandalone ∨
      selectedChallengeSingle f d = ChallengeDNS) ∧
    (∀ (f : InstallFlags) (dl : List String),
      selectedChallengeMulti f dl = ChallengeWebroot ∨
      selectedChallengeMulti f dl = ChallengeStandalone ∨
      selectedChallengeMulti f dl = ChallengeDNS) := by
  refine ⟨?_, ?_, ?_, ?_, ?_, ?_, ?_⟩
  · intro f dl h1 hw hd
    simp [validateInstallFlags, webserver_guard f h1, h1, hw, hd]
  · intro f dl h1 himp hcnt
    have hwd : (hasWildcardList dl && !f.dnsChallenge) = false := by
      cases hwl : hasWildcardList dl
      · simp
      · simp [himp hwl]
    simp [validateInstallFlags, webserver_guard f h1, h1, hwd, hcnt]
  · intro f dl h1 himp hcnt
    have hwd : (hasWildcardList dl && !f.dnsChallenge) = false := by
      cases hwl : hasWildcardList dl
      · simp
      · simp [himp hwl]
    have hn : ¬(challengeModeCount f > 1) := by omega
    simp [validateInstallFlags, webserver_guard f h1, h1, hwd, hn]
  · intro f d h1 h2 h3 h4
    simp [selectedChallengeSingle, h1, h2, h3, h4]
  · intro f dl h1 h2 h3 h4
    simp [selectedChallengeMulti, h1, h2, h3, h4]
  · intro f d
    unfold selectedChallengeSingle
    by_cases a : (f.dnsChallenge || startsWith d "*.") = true
    · rw [if_pos a]; right; right; rfl
    rw [if_neg a]
    by_cases b : f.standalone = true
    · rw [if_pos b]; right; left; rfl
    rw [if_neg b]
    by_cases c : f.webroot ≠ ""
    · rw [if_pos c]; left; rfl
    · rw [if_neg c]; left; rfl
  · intro f dl
    unfold selectedChallengeMulti
    by_cases a : (f.dnsChallenge || hasWildcardList dl) = true
    · rw [if_pos a]; right; right; rfl
    rw [if_neg a]
    by_cases b : f.standalone = true
    · rw [if_pos b]; right; left; rfl
    rw [if_neg b]
    by_cases c : f.webroot ≠ ""
    · rw [if_pos c]; left; rfl
    · rw [if_neg c]; left; rfl

/-- Witness for C5 amended at concrete flag combinations. -/
theorem C5_amended_challenge_selection_witness :
    validateInstallFlags
        { standalone := false, webroot := "", dnsChallenge := false,
          nginx := true, apache := false, iis := false }
        ["*.example.com"] = some .wildcardRequiresDNS ∧
    validateInstallFlags
        { standalone := true, webroot := "/w", dnsChallenge := false,
          nginx := true, apache := false, iis := false }
        ["example.com"] = some .invalidChallengeConfiguration ∧
    validateInstallFlags
        { standalone := false, webroot := "", dnsChallenge := false,
          nginx := true, apache := false, iis := false }
        ["example.com"] = none ∧
    selectedChallengeSingle
        { standalone := false, webroot := "", dnsChallenge := false,
          nginx := true, apache := false, iis := false }
        "example.com" = ChallengeWebroot ∧
    selectedChallengeMulti
        { standalone := false, webroot := "", dnsChallenge := false,
          nginx := true, apache := false, iis := false }
        ["example.com", "www.example.com"] = ChallengeWebroot :=
  ⟨C5_amended_challenge_selection.1 _ _ (by decide) (by decide)
      (by decide),
   C5_amended_challenge_selection.2.1 _ _ (by decide) (by decide)
      (by decide),
   C5_amended_challenge_selection.2.2.1 _ _ (by decide) (by decide)
      (by decide),
   C5_amended_challenge_selection.2.2.2.1 _ _ (by decide) (by decide)
      (by decide) (by decide),
   C5_amended_challenge_selection.2.2.2.2.1 _ _ (by decide) (by decide)
      (by decide) (by decide)⟩

/-- C8 counterexample: when the `domains.txt` write inside
`MultiDomainManager.saveCertificate` fails, the failure is only logged:
`Install` still reports success while the domain-list file was never
written — an error swallowed in a way that reports success. -/
theorem C8_counterexample_domains_txt_swallowed :
    ({ cleanEnv 7 with domainsWriteFails := true } :
        Env).domainsWriteFails = true ∧
    (MultiDomainManager.Install
        { cleanEnv 7 with domainsWriteFails := true } sanManager []).1 =
      .ok () ∧
    getFile
      (MultiDomainManager.Install
        { cleanEnv 7 with domainsWriteFails := true } sanManager []).2
      sanManager.getDomainsListPath = none :=
  ⟨rfl, rfl, rfl⟩

/-- C8 amended: every aborting step of both Install pipelines yields an
error (the success iffs list exactly the steps whose failure aborts: the
`domains.txt` write of the multi-domain manager is absent from its iff —
its failure is logged and swallowed); and a failing web-server
configuration step aborts Install with the wrapped
web-server-configuration error even though `cert.pem` has already been
persisted. -/
theorem C8_amended_error_propagation :
    (∀ (e : Env) (m : Manager) (fs : FS),
      (Manager.Install e m fs).1 = .ok () ↔
        (e.mkdirFails = false ∧ e.keyGenFails = false ∧
          e.csrFails = false ∧ chOK m ∧ e.selfSignFails = false ∧
          e.certWriteFails = false ∧ wsOK m)) ∧
    (∀ (e : Env) (m : MultiDomainManager) (fs : FS),
      (MultiDomainManager.Install e m fs).1 = .ok () ↔
        ((m.hasWildcardDomain = false ∨
            m.challengeType = ChallengeDNS) ∧
          e.mkdirFails = false ∧ e.keyGenFails = false ∧
          e.csrFails = false ∧ mchOK m ∧ e.selfSignFails = false ∧
          e.certWriteFails = false ∧ mwsOK m)) ∧
    (∀ (e : Env) (m : Manager) (fs : FS),
      e.mkdirFails = false → e.keyGenFails = false → e.csrFails = false →
      chOK m → e.selfSignFails = false → e.certWriteFails = false →
      ¬wsOK m →
      (Manager.Install e m fs).1 = .error .configureWebServerFailed ∧
      getFile (Manager.Install e m fs).2 m.getCertPath =
        some (.certPEM (singleCert e m))) ∧
    (∀ (e : Env) (m : MultiDomainManager) (fs : FS),
      (m.hasWildcardDomain = false ∨ m.challengeType = ChallengeDNS) →
      e.mkdirFails = false → e.keyGenFails = false → e.csrFails = false →
      mchOK m → e.selfSignFails = false → e.certWriteFails = false →
      ¬mwsOK m →
      (MultiDomainManager.Install e m fs).1 =
        .error .configureWebServerFailed ∧
      getFile (MultiDomainManager.Install e m fs).2 m.getCertPath =
        some (.certPEM (multiCert e m))) := by
  refine ⟨single_install_ok_iff, multi_install_ok_iff, ?_, ?_⟩
  · intro e m fs h1 h2 h3 hc h4 h5 hw
    constructor
    · rw [single_install_eq]
      simp [h1, h2, h3, hc, h4, h5, hw]
    · rw [single_install_eq]
      simp [h1, h2, h3, hc, h4, h5, hw, getFile_setFile_same]
  · intro e m fs hok h1 h2 h3 hc h4 h5 hw
    have hne : m.getCertPath ≠ m.getDomainsListPath :=
      pathJoin_ne (pathJoin m.certDir m.dirName) "cert.pem" "domains.txt"
        (by decide)
    constructor
    · rw [multi_install_noWild_eq e m fs hok]
      simp [h1, h2, h3, hc, h4, h5, hw]
    · rw [multi_install_noWild_eq e m fs hok]
      by_cases h6 : e.domainsWriteFails
      · simp [h1, h2, h3, hc, h4, h5, h6, hw, getFile_setFile_same]
      · simp only [h1, h2, h3, hc, h4, h5, hw, Bool.false_eq_true,
          ite_false, ite_true, not_true, not_false_iff, if_neg h6,
          if_pos]
        rw [getFile_setFile_ne _ _ _ _ hne]
        exact getFile_setFile_same _ _ _

/-- Witness for C8 amended: a manager with an out-of-range web-server
type aborts after the certificate was persisted. -/
theorem C8_amended_error_propagation_witness :
    (Manager.Install (cleanEnv 3)
        { domain := "example.com", email := "a@b.c",
          challengeType := ChallengeWebroot, webrootPath := "",
          webServerType := 5, certDir := "/certs", keySize := 2048 }
        []).1 = .error .configureWebServerFailed ∧
    getFile
      (Manager.Install (cleanEnv 3)
        { domain := "example.com", email := "a@b.c",
          challengeType := ChallengeWebroot, webrootPath := "",
          webServerType := 5, certDir := "/certs", keySize := 2048 }
        []).2
      ({ domain := "example.com", email := "a@b.c",
         challengeType := ChallengeWebroot, webrootPath := "",
         webServerType := 5, certDir := "/certs",
         keySize := 2048 } : Manager).getCertPath =
      some (.certPEM (singleCert (cleanEnv 3)
        { domain := "example.com", email := "a@b.c",
          challengeType := ChallengeWebroot, webrootPath := "",
          webServerType := 5, certDir := "/certs", keySize := 2048 })) :=
  C8_amended_error_propagation.2.2.1 (cleanEnv 3) _ [] rfl rfl rfl
    (Or.inl rfl) rfl rfl (by decide)

/-- C9: over any site-configuration file that is a sequence of server
blocks with plain bodies, the scan returns true exactly when a single
block contains both the SSL directive and a matching `server_name`; in
particular, when the two lines sit in two different blocks (and no
block has both), `checkSSLInConfig` reports no SSL, and `IsSSLEnabled`
over any set of such files returns false. -/
theorem C9_ssl_directive_split_across_blocks :
    (∀ (domain : String) (blocks : List (List String)),
      (∀ b ∈ blocks, ∀ l ∈ b, plainLine l = true) →
      checkSSLInConfig (renderBlocks blocks) domain =
        blocks.any (blockHasBoth domain)) ∧
    (∀ (domain : String) (blocks : List (List String)),
      (∀ b ∈ blocks, ∀ l ∈ b, plainLine l = true) →
      (∃ b ∈ blocks, b.any sslLine = true) →
      (∃ b ∈ blocks, b.any (nameLine domain) = true) →
      (∀ b ∈ blocks,
        ¬(b.any sslLine = true ∧ b.any (nameLine domain) = true)) →
      checkSSLInConfig (renderBlocks blocks) domain = false) ∧
    (∀ (domain : String) (files : List (List (List String))),
      (∀ bs ∈ files, (∀ b ∈ bs, ∀ l ∈ b, plainLine l = true) ∧
        (∀ b ∈ bs,
          ¬(b.any sslLine = true ∧ b.any (nameLine domain) = true))) →
      IsSSLEnabled (files.map renderBlocks) domain = false) := by
  have hfalse : ∀ (domain : String) (blocks : List (List String)),
      (∀ b ∈ blocks, ∀ l ∈ b, plainLine l = true) →
      (∀ b ∈ blocks,
        ¬(b.any sslLine = true ∧ b.any (nameLine domain) = true)) →
      checkSSLInConfig (renderBlocks blocks) domain = false := by
    intro domain blocks hwf hno
    unfold checkSSLInConfig
    rw [checkSSLLoop_blocks domain blocks false false hwf]
    rw [List.any_eq_false]
    intro b hb
    have := hno b hb
    unfold blockHasBoth
    cases hs : b.any sslLine
    · simp
    · cases hn : b.any (nameLine domain)
      · simp
      · exact absurd ⟨hs, hn⟩ this
  refine ⟨?_, ?_, ?_⟩
  · intro domain blocks hwf
    unfold checkSSLInConfig
    exact checkSSLLoop_blocks domain blocks false false hwf
  · intro domain blocks hwf _ _ hno
    exact hfalse domain blocks hwf hno
  · intro domain files hfiles
    unfold IsSSLEnabled
    rw [List.any_eq_false]
    intro f hf
    rw [List.mem_map] at hf
    obtain ⟨bs, hbs, rfl⟩ := hf
    rw [hfalse domain bs (hfiles bs hbs).1 (hfiles bs hbs).2]
    decide

/-- Witness for C9: the SSL directive in one server block and the
matching `server_name` in another yield no SSL for the file. -/
theorem C9_ssl_directive_split_across_blocks_witness :
    checkSSLInConfig
      (renderBlocks
        [["    ssl_certificate /etc/ssl/cert.pem;"],
         ["    server_name example.com;"]]) "example.com" = false :=
  C9_ssl_directive_split_across_blocks.2.1 "example.com"
    [["    ssl_certificate /etc/ssl/cert.pem;"],
     ["    server_name example.com;"]]
    (by decide) (by decide) (by decide) (by decide)
